import Mathlib

/-!
Verification of the llmqa generation–evaluation–filtering pipeline.

The definitions below are a shallow embedding of the Python sources:
`llmqa/evaluators/critique.py` (CritiqueEvaluator), `llmqa/generators/qa_generator.py`
(`_process_chunk_worker`, `QAGenerator.generate_from_chunk`).  Model calls, and the
stdlib `ast.literal_eval`, are external collaborators and are passed in as stub
functions; everything else mirrors the source line by line.  Scores are embedded as
rationals, machine floats play no role in the claims checked here.
-/

namespace LLMQA

/-! ## String helpers modelling Python `str` operations -/

/-- Python whitespace characters stripped by `str.strip()` (ASCII subset). -/
def pyIsWs (c : Char) : Bool :=
  c = ' ' || c = '\t' || c = '\n' || c = '\r' || c = Char.ofNat 11 || c = Char.ofNat 12

/-- Strip characters satisfying `p` from both ends of a character list, as
Python `str.strip(chars)` does. -/
def pyStripChars (p : Char → Bool) (s : List Char) : List Char :=
  ((s.dropWhile p).reverse.dropWhile p).reverse

/-- Python `str.strip()` on a string. -/
def pyStrip (s : String) : String :=
  ⟨pyStripChars pyIsWs s.toList⟩

/-- Fuelled helper for `delJson`; the fuel is an upper bound on the input length,
so it never runs out on the argument `delJson` passes. -/
def delJsonF : Nat → List Char → List Char
  | 0, s => s
  | _ + 1, [] => []
  | fuel + 1, c :: rest =>
    if ('j' :: 's' :: 'o' :: 'n' :: []).isPrefixOf (c :: rest) then
      delJsonF fuel (rest.drop 3)
    else
      c :: delJsonF fuel rest

/-- Delete every occurrence of the four characters of the word made of
j, s, o, n (non-overlapping, scanning left to right), as Python
`str.replace(pat, "")` does in `CritiqueEvaluator._parse_critique`. -/
def delJson (s : List Char) : List Char := delJsonF s.length s

/-- The cleaning step of `CritiqueEvaluator._parse_critique`:
`response.replace("json", "").strip().strip(backtick)`. -/
def cleanResponse (response : String) : String :=
  ⟨pyStripChars (fun c => c = Char.ofNat 96) (pyStripChars pyIsWs (delJson response.toList))⟩

/-! ## A JSON value model and a parser for the `json.loads` subset the judge uses

`json.loads` is the Python stdlib; the parser below models the subset exercised by
critique responses: objects, arrays, strings with the common escapes, decimal
numbers (no exponents), and the three keyword literals. -/

/-- JSON values.  Objects keep their key/value pairs in source order. -/
inductive JVal where
  | jnull : JVal
  | jbool : Bool → JVal
  | jnum : ℚ → JVal
  | jstr : String → JVal
  | jarr : List JVal → JVal
  | jobj : List (String × JVal) → JVal
deriving Repr

/-- JSON insignificant whitespace. -/
def jsonWs (c : Char) : Bool :=
  c = ' ' || c = '\t' || c = '\n' || c = '\r'

/-- Skip JSON whitespace. -/
def skipWs (s : List Char) : List Char := s.dropWhile jsonWs

/-- The common JSON string escapes. -/
def escChar (c : Char) : Option Char :=
  if c = '"' then some '"'
  else if c = '\\' then some '\\'
  else if c = '/' then some '/'
  else if c = 'n' then some '\n'
  else if c = 't' then some '\t'
  else if c = 'r' then some '\r'
  else if c = 'b' then some (Char.ofNat 8)
  else if c = 'f' then some (Char.ofNat 12)
  else none

/-- Parse the body of a JSON string (the opening quote already consumed). -/
def pStrChars : List Char → Except String (List Char × List Char)
  | [] => .error "Unterminated string"
  | c :: rest =>
    if c = '"' then .ok ([], rest)
    else if c = '\\' then
      match rest with
      | [] => .error "Unterminated string"
      | e :: rest2 =>
        match escChar e with
        | some ch =>
          match pStrChars rest2 with
          | .ok (s, r) => .ok (ch :: s, r)
          | .error err => .error err
        | none => .error "Invalid escape"
    else
      match pStrChars rest with
      | .ok (s, r) => .ok (c :: s, r)
      | .error err => .error err

/-- Decimal digits to a natural number. -/
def digitsToNat (ds : List Char) : Nat :=
  ds.foldl (fun a c => a * 10 + (c.toNat - '0'.toNat)) 0

/-- Parse a JSON number (optional minus, integer part, optional fraction). -/
def pNum (s : List Char) : Except String (ℚ × List Char) :=
  let signAndRest : Bool × List Char :=
    match s with
    | '-' :: r => (true, r)
    | _ => (false, s)
  let neg := signAndRest.1
  let s1 := signAndRest.2
  let ds := s1.takeWhile Char.isDigit
  let r1 := s1.dropWhile Char.isDigit
  if ds.isEmpty then .error "Expecting value" else
  let intPart : ℚ := (digitsToNat ds : ℚ)
  match r1 with
  | '.' :: r2 =>
    let fs := r2.takeWhile Char.isDigit
    let r3 := r2.dropWhile Char.isDigit
    if fs.isEmpty then .error "Expecting digits after decimal point" else
    let q := intPart + (digitsToNat fs : ℚ) / ((10 : ℚ) ^ fs.length)
    .ok (if neg then -q else q, r3)
  | _ => .ok (if neg then -intPart else intPart, r1)

/-- Parser mode: a fresh value, the member loop of an object (with the members
accumulated so far), or the element loop of an array. -/
inductive PMode where
  | pv : PMode
  | pobj : List (String × JVal) → PMode
  | parr : List JVal → PMode

/-- One first-order fuelled recursion implementing the JSON grammar: values,
object member loops, and array element loops.  The fuel only bounds the number
of recursive steps; `jsonParse` passes enough for any input. -/
def pStep : Nat → PMode → List Char → Except String (JVal × List Char)
  | 0, _, _ => .error "Too deeply nested"
  | fuel + 1, .pv, s =>
    match skipWs s with
    | '{' :: rest => pStep fuel (.pobj []) rest
    | '[' :: rest => pStep fuel (.parr []) rest
    | '"' :: rest =>
      match pStrChars rest with
      | .ok (cs, r) => .ok (.jstr ⟨cs⟩, r)
      | .error e => .error e
    | 't' :: r =>
      if ('r' :: 'u' :: 'e' :: []).isPrefixOf r then .ok (.jbool true, r.drop 3)
      else .error "Expecting value"
    | 'f' :: r =>
      if ('a' :: 'l' :: 's' :: 'e' :: []).isPrefixOf r then .ok (.jbool false, r.drop 4)
      else .error "Expecting value"
    | 'n' :: r =>
      if ('u' :: 'l' :: 'l' :: []).isPrefixOf r then .ok (.jnull, r.drop 3)
      else .error "Expecting value"
    | s' =>
      match pNum s' with
      | .ok (q, r) => .ok (.jnum q, r)
      | .error e => .error e
  | fuel + 1, .pobj acc, s =>
    match skipWs s with
    | '}' :: rest =>
      if acc.isEmpty then .ok (.jobj [], rest) else .error "Expecting property name"
    | '"' :: rest =>
      match pStrChars rest with
      | .error e => .error e
      | .ok (key, r1) =>
        match skipWs r1 with
        | ':' :: r2 =>
          match pStep fuel .pv r2 with
          | .error e => .error e
          | .ok (v, r3) =>
            match skipWs r3 with
            | ',' :: r4 => pStep fuel (.pobj (acc ++ [(⟨key⟩, v)])) r4
            | '}' :: r4 => .ok (.jobj (acc ++ [(⟨key⟩, v)]), r4)
            | _ => .error "Expecting comma delimiter"
        | _ => .error "Expecting colon delimiter"
    | _ => .error "Expecting property name"
  | fuel + 1, .parr acc, s =>
    match skipWs s with
    | ']' :: rest =>
      if acc.isEmpty then .ok (.jarr [], rest) else .error "Expecting value"
    | s' =>
      match pStep fuel .pv s' with
      | .error e => .error e
      | .ok (v, r1) =>
        match skipWs r1 with
        | ',' :: r2 => pStep fuel (.parr (acc ++ [v])) r2
        | ']' :: r2 => .ok (.jarr (acc ++ [v]), r2)
        | _ => .error "Expecting comma delimiter"

/-- Parse a whole JSON document, rejecting trailing data, as `json.loads`. -/
def jsonParse (s : String) : Except String JVal :=
  let cs := s.toList
  match pStep (2 * cs.length + 4) .pv cs with
  | .error e => .error e
  | .ok (v, rest) => if (skipWs rest).isEmpty then .ok v else .error "Extra data"

/-- Object member lookup with Python-dict semantics (a later duplicate key wins). -/
def jLookup (kvs : List (String × JVal)) (k : String) : Option JVal :=
  kvs.foldl (fun acc p => if p.1 = k then some p.2 else acc) none

/-- Python `float(x)` on a JSON value: numbers pass through, booleans become 0/1,
numeric strings are parsed, everything else raises. -/
def pyFloat (v : JVal) : Except String ℚ :=
  match v with
  | .jnum q => .ok q
  | .jbool b => .ok (if b then 1 else 0)
  | .jstr s =>
    match pNum (pyStripChars pyIsWs s.toList) with
    | .ok (q, []) => .ok q
    | _ => .error ("could not convert string to float: " ++ s)
  | _ => .error "float() argument must be a string or a real number"

/-! ## CritiqueEvaluator (`llmqa/evaluators/critique.py`)

The judge model is a stub `Nat → String → Except String String`: the first argument
is a call counter (the stub's k-th invocation), the second the rendered prompt; an
`error` result models a transport exception raised by the call.  Counting calls lets
the theorems talk about how many model invocations a run performs. -/

/-- A piece of a Python format string: literal text or a named placeholder. -/
inductive TPart where
  | lit : String → TPart
  | hole : String → TPart
deriving Repr, DecidableEq

/-- A criterion configuration dict as consumed by `evaluate_qa_pair`, with the
`.get` defaults of the source already applied (`name` defaults to
"Unnamed Criterion", `parameters` to `[]`). -/
structure Criterion where
  name : String
  prompt_template : List TPart
  parameters : List String
deriving Repr, DecidableEq

/-- A critique stored for one criterion: the parsed object's evaluation field and
its rating coerced to a number (or the sentinel values on retry exhaustion). -/
structure CritEntry where
  evaluation : JVal
  rating : ℚ
deriving Repr

/-- First-match association-list lookup (keys of the params dict are distinct,
so this agrees with Python dict lookup). -/
def lookupStr : List (String × String) → String → Option String
  | [], _ => none
  | p :: rest, k => if p.1 = k then some p.2 else lookupStr rest k

/-- Python `template.format(**mapping)`: substitute each placeholder from the
mapping; a placeholder absent from the mapping raises `KeyError`, whose `str`
is the key in single quotes. -/
def formatTemplate (tpl : List TPart) (m : List (String × String)) : Except String String :=
  match tpl with
  | [] => .ok ""
  | .lit s :: rest =>
    match formatTemplate rest m with
    | .ok t => .ok (s ++ t)
    | .error e => .error e
  | .hole n :: rest =>
    match lookupStr m n with
    | some v =>
      match formatTemplate rest m with
      | .ok t => .ok (v ++ t)
      | .error e => .error e
    | none => .error ("'" ++ n ++ "'")

/-- The `params` dict built in `evaluate_qa_pair`. -/
def critParams (question context answer : String) : List (String × String) :=
  [("question", question), ("context", context), ("answer", answer)]

/-- The declared subset actually passed to `.format`: `params` filtered to the
keys listed in the criterion's `parameters`. -/
def declaredParams (crit : Criterion) (question context answer : String) :
    List (String × String) :=
  (critParams question context answer).filter (fun p => crit.parameters.contains p.1)

/-- Render a criterion's prompt: `criterion["prompt_template"].format(**formatted_params)`. -/
def renderCriterion (crit : Criterion) (question context answer : String) :
    Except String String :=
  formatTemplate crit.prompt_template (declaredParams crit question context answer)

/-- Model of `CritiqueEvaluator._parse_critique`: clean the raw response, JSON-parse it,
require the `evaluation` and `rating` keys, coerce the rating to float. -/
def parseCritique (response : String) : Except String CritEntry :=
  match jsonParse (cleanResponse response) with
  | .error e => .error ("Failed to decode JSON: " ++ e ++ "\nResponse: " ++ response)
  | .ok (.jobj kvs) =>
    match jLookup kvs "evaluation", jLookup kvs "rating" with
    | some ev, some rv =>
      match pyFloat rv with
      | .ok q => .ok ⟨ev, q⟩
      | .error e => .error e
    | _, _ => .error "Missing required keys in JSON response"
  | .ok _ => .error "Missing required keys in JSON response"

/-- One iteration of the per-criterion try-body in `evaluate_qa_pair`: render the
prompt, call the judge, parse the critique.  Returns the outcome and the updated
model-call counter (a render failure makes no model call). -/
def critAttempt (model : Nat → String → Except String String)
    (question context answer : String) (crit : Criterion) (k : Nat) :
    Except String CritEntry × Nat :=
  match renderCriterion crit question context answer with
  | .error e => (.error e, k)
  | .ok prompt =>
    match model k prompt with
    | .error e => (.error e, k + 1)
    | .ok resp =>
      match parseCritique resp with
      | .error e => (.error e, k + 1)
      | .ok entry => (.ok entry, k + 1)

/-- The per-criterion retry loop of `evaluate_qa_pair` (`max_retries = 3` in the
source); `left` attempts remain.  On exhaustion the sentinel critique is stored:
the synthesized error message and the worst rating 1.0. -/
def critLoop (model : Nat → String → Except String String)
    (question context answer : String) (crit : Criterion) :
    Nat → Nat → CritEntry × Nat
  | 0, k => (⟨.jstr "Error after 3 attempts: ", 1⟩, k)
  | left + 1, k =>
    match critAttempt model question context answer crit k with
    | (.ok entry, k') => (entry, k')
    | (.error e, k') =>
      if left = 0 then
        (⟨.jstr ("Error after 3 attempts: " ++ e), 1⟩, k')
      else
        critLoop model question context answer crit left k'

/-- Evaluate one criterion: the retry loop entered with 3 attempts. -/
def evalCriterion (model : Nat → String → Except String String)
    (question context answer : String) (crit : Criterion) (k : Nat) :
    CritEntry × Nat :=
  critLoop model question context answer crit 3 k

/-- Update of the `critiques` Python dict: overwrite in place or append. -/
def upsert (m : List (String × CritEntry)) (k : String) (v : CritEntry) :
    List (String × CritEntry) :=
  match m with
  | [] => [(k, v)]
  | (k', v') :: rest => if k' = k then (k, v) :: rest else (k', v') :: upsert rest k v

/-- Python dict key lookup on the critiques map (`upsert` keeps keys distinct,
so first match is the only match). -/
def lookupCE : List (String × CritEntry) → String → Option CritEntry
  | [], _ => none
  | p :: rest, k => if p.1 = k then some p.2 else lookupCE rest k

/-- The criterion loop of `evaluate_qa_pair`, threading the critiques dict and the
model-call counter. -/
def evalCriteria (model : Nat → String → Except String String)
    (question context answer : String) :
    List Criterion → List (String × CritEntry) → Nat →
    List (String × CritEntry) × Nat
  | [], acc, k => (acc, k)
  | crit :: rest, acc, k =>
    let r := evalCriterion model question context answer crit k
    evalCriteria model question context answer rest (upsert acc crit.name r.1) r.2

/-- The dict returned by `evaluate_qa_pair`. -/
structure EvalResult where
  critiques : List (String × CritEntry)
  aggregate_score : Option ℚ
deriving Repr

/-- The aggregate: `sum(ratings)/len(ratings) if ratings else None`.
Every stored critique is a dict with a `rating` key, so the comprehension's filter
keeps every entry. -/
def aggregateScore (critiques : List (String × CritEntry)) : Option ℚ :=
  let ratings := critiques.map (fun p => p.2.rating)
  if ratings.isEmpty then none else some (ratings.sum / (ratings.length : ℚ))

/-- Model of `CritiqueEvaluator.evaluate_qa_pair`: evaluate each criterion with its own
retry loop, then aggregate.  Also returns the final model-call counter. -/
def evaluate_qa_pair (model : Nat → String → Except String String)
    (question context answer : String) (criteria : List Criterion) (k : Nat) :
    EvalResult × Nat :=
  let r := evalCriteria model question context answer criteria [] k
  (⟨r.1, aggregateScore r.1⟩, r.2)

/-! ## Generation worker (`llmqa/generators/qa_generator.py`)

`_process_chunk_worker` calls the generation model on the chunk text, parses the
response with `ast.literal_eval`, validates the shape, optionally critiques and
filters each pair, and retries the whole try-body with error feedback.  The model
and `ast.literal_eval` (a stdlib collaborator) are stubs in the environment; the
critique agent is a stub returning the critiques value and the aggregate score. -/

/-- Python values as produced by `ast.literal_eval` (string-keyed dicts suffice
for the QA payloads). -/
inductive PyVal where
  | pstr : String → PyVal
  | pint : Int → PyVal
  | pfloat : ℚ → PyVal
  | pbool : Bool → PyVal
  | pnone : PyVal
  | plist : List PyVal → PyVal
  | pdict : List (String × PyVal) → PyVal
deriving Repr

/-- Python dict lookup (a later duplicate key wins). -/
def pyGet (kvs : List (String × PyVal)) (k : String) : Option PyVal :=
  kvs.foldl (fun acc p => if p.1 = k then some p.2 else acc) none

/-- Python `key in dict`. -/
def hasKey (kvs : List (String × PyVal)) (k : String) : Bool :=
  (pyGet kvs k).isSome

/-- A processed pair `{**pair, "source_context": chunk}` plus the critique fields
the worker may attach. -/
structure ProcPair where
  fields : List (String × PyVal)
  source_context : String
  critiques : Option PyVal
  aggregate_score : Option ℚ
deriving Repr

/-- The worker's collaborators: the generation model (call-counted, `error` is a
transport exception), the `ast.literal_eval` parser, and the optional critique
agent `evaluate_qa_pair(question, context)` returning critiques and aggregate
score (`error` is an exception raised during critique). -/
structure WorkerEnv where
  model : Nat → String → Except String String
  pyEval : String → Except String PyVal
  critique : Option (PyVal → String → Except String (PyVal × ℚ))

/-- The per-pair loop of the worker's try-body: validate each element, attach the
source context, critique and filter when a critique agent is configured.  Any
failure aborts the whole loop (the Python exception discards `processed_pairs`). -/
def processPairs (critique : Option (PyVal → String → Except String (PyVal × ℚ)))
    (chunk : String) (minScore : ℚ) : List PyVal → Except String (List ProcPair)
  | [] => .ok []
  | v :: rest =>
    match v with
    | .pdict kvs =>
      if hasKey kvs "question" && hasKey kvs "answer" then
        match critique with
        | none =>
          match processPairs critique chunk minScore rest with
          | .ok ps => .ok (⟨kvs, chunk, none, none⟩ :: ps)
          | .error e => .error e
        | some f =>
          match f ((pyGet kvs "question").getD .pnone) chunk with
          | .error e => .error e
          | .ok r =>
            match processPairs critique chunk minScore rest with
            | .ok ps =>
              .ok (if minScore ≤ r.2 then ⟨kvs, chunk, some r.1, some r.2⟩ :: ps else ps)
            | .error e => .error e
      else .error "Each QA pair must be a dict with 'question' and 'answer' keys"
    | _ => .error "Each QA pair must be a dict with 'question' and 'answer' keys"

/-- One iteration of the worker's try-body: call the model on the current chunk
text, `ast.literal_eval` the response, check the list shape, process the pairs.
Every branch makes exactly one model call. -/
def workerAttempt (env : WorkerEnv) (minScore : ℚ) (chunk : String) (k : Nat) :
    Except String (List ProcPair) × Nat :=
  match env.model k chunk with
  | .error e => (.error e, k + 1)
  | .ok response =>
    match env.pyEval response with
    | .error e => (.error e, k + 1)
    | .ok v =>
      match v with
      | .plist xs => (processPairs env.critique chunk minScore xs, k + 1)
      | _ => (.error "Model response must be a list", k + 1)

/-- What a worker invocation can produce: the processed pairs, the terminal
`ValueError` raised on retry exhaustion, or the implicit Python `None` when
`range(max_retries)` is empty. -/
inductive WorkerResult where
  | ok : List ProcPair → WorkerResult
  | fail : String → WorkerResult
  | nothing : WorkerResult
deriving Repr

/-- The error-feedback chunk rewrite performed before the next attempt. -/
def feedback (e chunk : String) : String :=
  "You just tried to create a response for the following chunk but got this error " ++
    e ++ ". Make sure your new response does not cause this.\n" ++ chunk

/-- The terminal error message raised when retries are exhausted. -/
def failMsg (maxRetries : Nat) (e : String) : String :=
  "Failed to generate valid QA pairs after " ++ toString maxRetries ++
    " attempts. Last error: " ++ e

/-- The worker's `for attempt in range(max_retries)` loop; `left` iterations
remain, `chunk` is the current (possibly feedback-annotated) chunk text. -/
def workerGo (env : WorkerEnv) (minScore : ℚ) (maxRetries : Nat) :
    Nat → String → Nat → WorkerResult × Nat
  | 0, _, k => (.nothing, k)
  | left + 1, chunk, k =>
    match workerAttempt env minScore chunk k with
    | (.ok pairs, k') => (.ok pairs, k')
    | (.error e, k') =>
      if left = 0 then (.fail (failMsg maxRetries e), k')
      else workerGo env minScore maxRetries left (feedback e chunk) k'

/-- Model of `_process_chunk_worker`, with a model-call counter threaded through. -/
def processChunkWorker (env : WorkerEnv) (chunk : String) (minScore : ℚ)
    (maxRetries : Nat) (k : Nat) : WorkerResult × Nat :=
  workerGo env minScore maxRetries maxRetries chunk k

/-- The chunk text after `m` consecutive failed attempts whose errors are
`errs k, errs (k+1), ...`. -/
def iterFB (errs : Nat → String) : Nat → Nat → String → String
  | 0, _, chunk => chunk
  | m + 1, k, chunk => iterFB errs m (k + 1) (feedback (errs k) chunk)

/-- The processed view of a valid pair when no critique agent is configured. -/
def plainView (chunk : String) (v : PyVal) : ProcPair :=
  match v with
  | .pdict kvs => ⟨kvs, chunk, none, none⟩
  | _ => ⟨[], chunk, none, none⟩

/-- The retention decision per parsed pair when a critique agent `f` is
configured: the pair appears in the worker's result exactly when its aggregate
score reaches the threshold. -/
def keptView (f : PyVal → String → Except String (PyVal × ℚ)) (chunk : String)
    (minScore : ℚ) (v : PyVal) : Option ProcPair :=
  match v with
  | .pdict kvs =>
    match f ((pyGet kvs "question").getD .pnone) chunk with
    | .ok r => if minScore ≤ r.2 then some ⟨kvs, chunk, some r.1, some r.2⟩ else none
    | .error _ => none
  | _ => none

/-- An argument passed for the `chunk` parameter of `generate_from_chunk`: a
Python string, or a non-string object tagged with its type name. -/
inductive PyArg where
  | pystr : String → PyArg
  | nonstr : String → PyArg

/-- What `QAGenerator.generate_from_chunk` can do: raise `TypeError`, raise
`ValueError`, or return the worker's outcome. -/
inductive GenResult where
  | typeError : String → GenResult
  | valueError : String → GenResult
  | result : WorkerResult → GenResult

/-- Model of `QAGenerator.generate_from_chunk`: the guards run before the worker (and so
before any model call; the returned counter is unchanged when they fire). -/
def generate_from_chunk (env : WorkerEnv) (minScore : ℚ) (chunk : PyArg)
    (maxRetries : Nat) (k : Nat) : GenResult × Nat :=
  match chunk with
  | .nonstr t => (.typeError ("Chunk must be a string, got " ++ t), k)
  | .pystr s =>
    if pyStrip s = "" then (.valueError "Chunk cannot be empty", k)
    else
      let r := processChunkWorker env s minScore maxRetries k
      (.result r.1, r.2)

/-! ## Projections used to compare parse results on concrete responses -/

/-- The string content of a JSON value, when it is a string. -/
def evalString (v : JVal) : Option String :=
  match v with
  | .jstr s => some s
  | _ => none

/-- The evaluation field's string content of a parsed JSON object result. -/
def jsonEvalText (r : Except String JVal) : Option String :=
  match r with
  | .ok (.jobj kvs) => (jLookup kvs "evaluation").bind evalString
  | _ => none

/-- Whether a parsed JSON object result carries a rating key. -/
def jsonHasRating (r : Except String JVal) : Bool :=
  match r with
  | .ok (.jobj kvs) => (jLookup kvs "rating").isSome
  | _ => false

/-- The evaluation field's string content of a `parseCritique` result. -/
def critiqueEvalText (r : Except String CritEntry) : Option String :=
  match r with
  | .ok en => evalString en.evaluation
  | _ => none

/-- A judge response that is syntactically valid JSON with both required keys,
whose evaluation text happens to mention the word json. -/
def critR : String :=
  "\x7b\"evaluation\": \"The json output is valid.\", \"rating\": 4\x7d"

/-! ## Concrete stubs used by witnesses and counterexamples -/

/-- A judge stub that always answers with a well-formed critique rated 4. -/
def judgeOk4 : Nat → String → Except String String :=
  fun _ _ => .ok "\x7b\"evaluation\": \"fine\", \"rating\": 4\x7d"

/-- A judge stub whose responses never parse. -/
def judgeBad : Nat → String → Except String String :=
  fun _ _ => .ok "not valid"

/-- The parse error `_parse_critique` produces on the `judgeBad` response. -/
def msgC4 : String := "Failed to decode JSON: Expecting value\nResponse: not valid"

/-- A well-formed criterion whose only placeholder is declared. -/
def critGrounded : Criterion :=
  ⟨"groundedness", [.lit "Rate: ", .hole "question"], ["question"]⟩

/-- A criterion whose template references the undeclared placeholder answer. -/
def critBadTpl : Criterion :=
  ⟨"completeness", [.lit "Q: ", .hole "question", .lit " A: ", .hole "answer"],
    ["question"]⟩

/-- A parsed QA pair with both required keys and string values. -/
def qaPairVal : PyVal :=
  .pdict [("question", .pstr "What is ATP?"), ("answer", .pstr "Energy currency.")]

/-- The field list of `qaPairVal`. -/
def qaPairFields : List (String × PyVal) :=
  [("question", .pstr "What is ATP?"), ("answer", .pstr "Energy currency.")]

/-- A worker environment whose first model response fails `ast.literal_eval` and
whose second parses to one valid pair; no critique agent. -/
def envRetry : WorkerEnv where
  model := fun k _ => .ok (if k = 0 then "BAD" else "GOOD")
  pyEval := fun r =>
    if r = "GOOD" then .ok (.plist [qaPairVal]) else .error "malformed node or string"
  critique := none

/-- A worker environment whose responses never parse. -/
def envAllFail : WorkerEnv where
  model := fun _ _ => .ok "BAD"
  pyEval := fun _ => .error "malformed node or string"
  critique := none

/-- A worker environment whose first model call raises a transport error and
whose second call succeeds with one valid pair. -/
def envTransport : WorkerEnv where
  model := fun k _ => if k = 0 then .error "ConnectionError" else .ok "GOOD"
  pyEval := fun r =>
    if r = "GOOD" then .ok (.plist [qaPairVal]) else .error "malformed node or string"
  critique := none

/-- A worker environment whose every model call raises a transport error. -/
def envTransportAll : WorkerEnv where
  model := fun _ _ => .error "ConnectionError"
  pyEval := fun _ => .error "malformed node or string"
  critique := none

/-- A critique stub that scores every pair 1.0 (below any useful threshold). -/
def lowJudge : PyVal → String → Except String (PyVal × ℚ) :=
  fun _ _ => .ok (.pdict [], 1)

/-- A worker environment that generates one valid pair and critiques it at 1.0. -/
def envLow : WorkerEnv where
  model := fun _ _ => .ok "RESP"
  pyEval := fun _ => .ok (.plist [qaPairVal])
  critique := some lowJudge

/-- A worker environment whose parsed pair has a non-string question value and an
empty-string answer value. -/
def envBadVals : WorkerEnv where
  model := fun _ _ => .ok "RESP"
  pyEval := fun _ => .ok (.plist [.pdict [("question", .pint 1), ("answer", .pstr "")]])
  critique := none

/-- A critique stub that rates the pair with question Q1 at 4 and others at 2. -/
def mixJudge : PyVal → String → Except String (PyVal × ℚ) :=
  fun q _ =>
    match q with
    | .pstr "Q1" => .ok (.pstr "good", 4)
    | _ => .ok (.pstr "weak", 2)

/-- A parsed pair whose question is Q1. -/
def pairQ1 : PyVal := .pdict [("question", .pstr "Q1"), ("answer", .pstr "A1")]

/-- A parsed pair whose question is Q2. -/
def pairQ2 : PyVal := .pdict [("question", .pstr "Q2"), ("answer", .pstr "A2")]

/-! ## Helper lemmas: critique evaluator -/

theorem upsert_ne_nil (m : List (String × CritEntry)) (k : String) (v : CritEntry) :
    upsert m k v ≠ [] := by
  cases m with
  | nil => simp [upsert]
  | cons p rest => simp only [upsert]; split <;> simp

theorem evalCriteria_fst_eq_nil (model : Nat → String → Except String String)
    (q c a : String) (cs : List Criterion) :
    ∀ acc k, (evalCriteria model q c a cs acc k).1 = [] ↔ (cs = [] ∧ acc = []) := by
  induction cs with
  | nil => intro acc k; simp [evalCriteria]
  | cons c₀ rest ih =>
    intro acc k
    simp only [evalCriteria]
    rw [ih]
    simp [upsert_ne_nil]

theorem lookupCE_upsert_self (m : List (String × CritEntry)) (k : String) (v : CritEntry) :
    lookupCE (upsert m k v) k = some v := by
  induction m with
  | nil => simp [upsert, lookupCE]
  | cons p rest ih =>
    simp only [upsert]
    by_cases hk : p.1 = k
    · simp [hk, lookupCE]
    · simp [hk, lookupCE, ih]

theorem lookupCE_upsert_isSome (m : List (String × CritEntry)) (k n : String)
    (v : CritEntry) (h : (lookupCE m n).isSome) :
    (lookupCE (upsert m k v) n).isSome := by
  induction m with
  | nil => simp [lookupCE] at h
  | cons p rest ih =>
    simp only [upsert]
    by_cases hk : p.1 = k
    · rw [if_pos hk]
      simp only [lookupCE]
      by_cases hn : k = n
      · simp [hn]
      · rw [if_neg hn]
        simp only [lookupCE] at h
        rw [if_neg (by rw [hk]; exact hn)] at h
        exact h
    · rw [if_neg hk]
      simp only [lookupCE]
      by_cases hn : p.1 = n
      · simp [hn]
      · rw [if_neg hn]
        simp only [lookupCE] at h
        rw [if_neg hn] at h
        exact ih h

theorem evalCriteria_lookup_mono (model : Nat → String → Except String String)
    (q c a : String) (cs : List Criterion) :
    ∀ acc k n, (lookupCE acc n).isSome →
      (lookupCE (evalCriteria model q c a cs acc k).1 n).isSome := by
  induction cs with
  | nil => intro acc k n h; simpa [evalCriteria] using h
  | cons c₀ rest ih =>
    intro acc k n h
    simp only [evalCriteria]
    exact ih _ _ n (lookupCE_upsert_isSome _ _ _ _ h)

theorem evalCriteria_mem_isSome (model : Nat → String → Except String String)
    (q c a : String) (cs : List Criterion) :
    ∀ acc k c₀, c₀ ∈ cs →
      (lookupCE (evalCriteria model q c a cs acc k).1 c₀.name).isSome := by
  induction cs with
  | nil => intro acc k c₀ h; cases h
  | cons chead rest ih =>
    intro acc k c₀ h
    rcases List.mem_cons.mp h with h1 | h2
    · subst h1
      simp only [evalCriteria]
      exact evalCriteria_lookup_mono model q c a rest _ _ _
        (by rw [lookupCE_upsert_self]; rfl)
    · simp only [evalCriteria]
      exact ih _ _ c₀ h2

theorem critAttempt_snd_le (model : Nat → String → Except String String)
    (q c a : String) (crit : Criterion) (k : Nat) :
    (critAttempt model q c a crit k).2 ≤ k + 1 := by
  rcases h1 : renderCriterion crit q c a with e | prompt
  · simp [critAttempt, h1]
  · rcases h2 : model k prompt with e | resp
    · simp [critAttempt, h1, h2]
    · rcases h3 : parseCritique resp with e | entry
      · simp [critAttempt, h1, h2, h3]
      · simp [critAttempt, h1, h2, h3]

/-! ## Helper lemmas: template rendering -/

theorem lookupStr_filter_contains (l : List (String × String)) (ps : List String)
    (n : String) (h : ps.contains n = false) :
    lookupStr (l.filter fun p => ps.contains p.1) n = none := by
  induction l with
  | nil => rfl
  | cons p rest ih =>
    simp only [List.filter]
    cases hp : ps.contains p.1 with
    | false => exact ih
    | true =>
      have hne : p.1 ≠ n := by
        intro hEq
        rw [hEq] at hp
        rw [hp] at h
        cases h
      simp only [lookupStr]
      rw [if_neg hne]
      exact ih

theorem formatTemplate_error_of_missing (tpl : List TPart) (m : List (String × String))
    (n : String) (hhole : TPart.hole n ∈ tpl) (hmiss : lookupStr m n = none) :
    ∃ e, formatTemplate tpl m = .error e := by
  induction tpl with
  | nil => cases hhole
  | cons p rest ih =>
    cases p with
    | lit s =>
      have hh : TPart.hole n ∈ rest := by
        rcases List.mem_cons.mp hhole with h1 | h2
        · cases h1
        · exact h2
      obtain ⟨e, he⟩ := ih hh
      exact ⟨e, by simp [formatTemplate, he]⟩
    | hole n' =>
      rcases hv : lookupStr m n' with _ | v
      · exact ⟨"'" ++ n' ++ "'", by simp [formatTemplate, hv]⟩
      · have hne : n' ≠ n := by
          intro hEq
          rw [hEq] at hv
          rw [hmiss] at hv
          cases hv
        have hh : TPart.hole n ∈ rest := by
          rcases List.mem_cons.mp hhole with h1 | h2
          · exact absurd (by injection h1 with h; exact h.symm) hne
          · exact h2
        obtain ⟨e, he⟩ := ih hh
        exact ⟨e, by simp [formatTemplate, hv, he]⟩

/-! ## Helper lemmas: generation worker -/

theorem workerAttempt_snd (env : WorkerEnv) (minScore : ℚ) (chunk : String) (k : Nat) :
    (workerAttempt env minScore chunk k).2 = k + 1 := by
  rcases h1 : env.model k chunk with e | resp
  · simp [workerAttempt, h1]
  · rcases h2 : env.pyEval resp with e | v
    · simp [workerAttempt, h1, h2]
    · cases v <;> simp [workerAttempt, h1, h2]

theorem workerAttempt_parse_error (env : WorkerEnv) (minScore : ℚ) (chunk : String)
    (k : Nat) (resp e : String) (hm : env.model k chunk = .ok resp)
    (hp : env.pyEval resp = .error e) :
    workerAttempt env minScore chunk k = (.error e, k + 1) := by
  simp [workerAttempt, hm, hp]

theorem workerAttempt_parse_ok (env : WorkerEnv) (minScore : ℚ) (chunk : String)
    (k : Nat) (resp : String) (xs : List PyVal) (ps : List ProcPair)
    (hm : env.model k chunk = .ok resp) (hp : env.pyEval resp = .ok (.plist xs))
    (hpp : processPairs env.critique chunk minScore xs = .ok ps) :
    workerAttempt env minScore chunk k = (.ok ps, k + 1) := by
  simp [workerAttempt, hm, hp, hpp]

theorem workerAttempt_transport (env : WorkerEnv) (minScore : ℚ) (chunk : String)
    (k : Nat) (e : String) (hm : env.model k chunk = .error e) :
    workerAttempt env minScore chunk k = (.error e, k + 1) := by
  simp [workerAttempt, hm]

theorem workerGo_ok_of_attempts (env : WorkerEnv) (minScore : ℚ) (maxR : Nat)
    (errs : Nat → String) (P : String → List ProcPair) (N : Nat)
    (hf : ∀ chunk k, k + 1 < N →
      workerAttempt env minScore chunk k = (.error (errs k), k + 1))
    (hs : ∀ chunk, workerAttempt env minScore chunk (N - 1) = (.ok (P chunk), N)) :
    ∀ left k chunk, k + left = maxR → k < N → N ≤ maxR →
      workerGo env minScore maxR left chunk k =
        (.ok (P (iterFB errs (N - 1 - k) k chunk)), N) := by
  intro left
  induction left with
  | zero => intro k chunk hkl hkN hNR; omega
  | succ left ih =>
    intro k chunk hkl hkN hNR
    by_cases hk : k + 1 = N
    · have hk' : k = N - 1 := by omega
      have hA : workerAttempt env minScore chunk k = (.ok (P chunk), N) := by
        rw [hk']; exact hs chunk
      simp only [workerGo, hA]
      rw [show N - 1 - k = 0 by omega]
      rfl
    · have hkN' : k + 1 < N := by omega
      have hA := hf chunk k hkN'
      have hleft : ¬ left = 0 := by omega
      simp only [workerGo, hA]
      rw [if_neg hleft]
      rw [ih (k + 1) (feedback (errs k) chunk) (by omega) (by omega) hNR]
      rw [show N - 1 - k = (N - 1 - (k + 1)) + 1 by omega]
      rfl

theorem workerGo_fail_of_attempts (env : WorkerEnv) (minScore : ℚ) (maxR : Nat)
    (errs : Nat → String)
    (hf : ∀ chunk k, k < maxR →
      workerAttempt env minScore chunk k = (.error (errs k), k + 1)) :
    ∀ left k chunk, k + left = maxR → 1 ≤ left →
      workerGo env minScore maxR left chunk k =
        (.fail (failMsg maxR (errs (maxR - 1))), maxR) := by
  intro left
  induction left with
  | zero => intro k chunk hkl h1; omega
  | succ left ih =>
    intro k chunk hkl h1
    have hA := hf chunk k (by omega)
    by_cases hleft : left = 0
    · subst hleft
      simp only [workerGo, hA, if_true]
      rw [show k = maxR - 1 by omega]
      rw [show maxR - 1 + 1 = maxR by omega]
    · simp only [workerGo, hA]
      rw [if_neg hleft]
      exact ih (k + 1) (feedback (errs k) chunk) (by omega) (by omega)

theorem workerGo_ok_inv (env : WorkerEnv) (minScore : ℚ) (maxR : Nat) :
    ∀ left chunk k ps k',
      workerGo env minScore maxR left chunk k = (.ok ps, k') →
      ∃ chunk₁ k₁, (workerAttempt env minScore chunk₁ k₁).1 = .ok ps := by
  intro left
  induction left with
  | zero => intro chunk k ps k' h; simp [workerGo] at h
  | succ left ih =>
    intro chunk k ps k' h
    rcases hA : workerAttempt env minScore chunk k with ⟨r, k₁⟩
    cases r with
    | ok pairs =>
      refine ⟨chunk, k, ?_⟩
      rw [hA]
      simp only [workerGo, hA] at h
      have : pairs = ps := by
        have := congrArg Prod.fst h
        simpa using this
      rw [this]
    | error e =>
      simp only [workerGo, hA] at h
      by_cases hleft : left = 0
      · rw [if_pos hleft] at h
        cases h
      · rw [if_neg hleft] at h
        exact ih _ _ _ _ h

theorem workerAttempt_ok_inv (env : WorkerEnv) (minScore : ℚ) (chunk : String)
    (k : Nat) (ps : List ProcPair)
    (h : (workerAttempt env minScore chunk k).1 = .ok ps) :
    ∃ xs, processPairs env.critique chunk minScore xs = .ok ps := by
  rcases h1 : env.model k chunk with e | resp
  · simp [workerAttempt, h1] at h
  · rcases h2 : env.pyEval resp with e | v
    · simp [workerAttempt, h1, h2] at h
    · cases v with
      | plist xs =>
        refine ⟨xs, ?_⟩
        simpa [workerAttempt, h1, h2] using h
      | pstr s => simp [workerAttempt, h1, h2] at h
      | pint n => simp [workerAttempt, h1, h2] at h
      | pfloat q => simp [workerAttempt, h1, h2] at h
      | pbool b => simp [workerAttempt, h1, h2] at h
      | pnone => simp [workerAttempt, h1, h2] at h
      | pdict kvs => simp [workerAttempt, h1, h2] at h

theorem processPairs_none_ok (chunk : String) (minScore : ℚ) :
    ∀ vs ps, processPairs none chunk minScore vs = .ok ps →
      ps = vs.map (plainView chunk) := by
  intro vs
  induction vs with
  | nil =>
    intro ps h
    simp only [processPairs] at h
    cases h
    rfl
  | cons v rest ih =>
    intro ps h
    cases v with
    | pdict kvs =>
      simp only [processPairs] at h
      by_cases hkeys : (hasKey kvs "question" && hasKey kvs "answer") = true
      · rw [if_pos hkeys] at h
        rcases hrec : processPairs none chunk minScore rest with e | ps'
        · rw [hrec] at h; cases h
        · rw [hrec] at h
          cases h
          simp [List.map, plainView, ih ps' hrec]
      · rw [if_neg hkeys] at h; cases h
    | pstr s => simp [processPairs] at h
    | pint n => simp [processPairs] at h
    | pfloat q => simp [processPairs] at h
    | pbool b => simp [processPairs] at h
    | pnone => simp [processPairs] at h
    | plist xs => simp [processPairs] at h

theorem processPairs_some_ok (f : PyVal → String → Except String (PyVal × ℚ))
    (chunk : String) (minScore : ℚ) :
    ∀ vs ps, processPairs (some f) chunk minScore vs = .ok ps →
      ps = vs.filterMap (keptView f chunk minScore) := by
  intro vs
  induction vs with
  | nil =>
    intro ps h
    simp only [processPairs] at h
    cases h
    rfl
  | cons v rest ih =>
    intro ps h
    cases v with
    | pdict kvs =>
      simp only [processPairs] at h
      by_cases hkeys : (hasKey kvs "question" && hasKey kvs "answer") = true
      · rw [if_pos hkeys] at h
        rcases hf : f ((pyGet kvs "question").getD .pnone) chunk with e | r
        · rw [hf] at h; cases h
        · rw [hf] at h
          rcases hrec : processPairs (some f) chunk minScore rest with e | ps'
          · rw [hrec] at h; cases h
          · rw [hrec] at h
            cases h
            by_cases hsc : minScore ≤ r.2
            · simp [List.filterMap, keptView, hf, hsc, if_pos, ih ps' hrec]
            · simp [List.filterMap, keptView, hf, hsc, ih ps' hrec]
      · rw [if_neg hkeys] at h; cases h
    | pstr s => simp [processPairs] at h
    | pint n => simp [processPairs] at h
    | pfloat q => simp [processPairs] at h
    | pbool b => simp [processPairs] at h
    | pnone => simp [processPairs] at h
    | plist xs => simp [processPairs] at h

theorem keptView_bound (f : PyVal → String → Except String (PyVal × ℚ))
    (chunk : String) (minScore : ℚ) (v : PyVal) (pp : ProcPair)
    (h : keptView f chunk minScore v = some pp) :
    ∃ s, pp.aggregate_score = some s ∧ minScore ≤ s := by
  cases v with
  | pdict kvs =>
    simp only [keptView] at h
    rcases hf : f ((pyGet kvs "question").getD .pnone) chunk with e | r
    · rw [hf] at h; cases h
    · rw [hf] at h
      dsimp only at h
      by_cases hsc : minScore ≤ r.2
      · rw [if_pos hsc] at h
        cases h
        exact ⟨r.2, rfl, hsc⟩
      · rw [if_neg hsc] at h; cases h
  | pstr s => simp [keptView] at h
  | pint n => simp [keptView] at h
  | pfloat q => simp [keptView] at h
  | pbool b => simp [keptView] at h
  | pnone => simp [keptView] at h
  | plist xs => simp [keptView] at h

theorem critLoop_succ (model : Nat → String → Except String String)
    (q c a : String) (crit : Criterion) (left k : Nat) :
    critLoop model q c a crit (left + 1) k =
      (match critAttempt model q c a crit k with
       | (.ok entry, k') => (entry, k')
       | (.error e, k') =>
         if left = 0 then (⟨.jstr ("Error after 3 attempts: " ++ e), 1⟩, k')
         else critLoop model q c a crit left k') := rfl

theorem aggregateScore_eq_none_iff (cs : List (String × CritEntry)) :
    aggregateScore cs = none ↔ cs = [] := by
  cases cs with
  | nil => simp [aggregateScore]
  | cons p rest => simp [aggregateScore]

/-! ## Claim theorems -/

/-- C2: for every evaluation of a QA pair by `CritiqueEvaluator.evaluate_qa_pair`,
the aggregate score is `none` exactly when the criteria list is empty, and
otherwise it is the arithmetic mean of all ratings present in the critiques map
(sentinel ratings included), computed over a provably non-empty ratings list, so
no division by zero happens. -/
theorem critique_aggregate_iff (model : Nat → String → Except String String)
    (q c a : String) (criteria : List Criterion) (k : Nat) :
    ((evaluate_qa_pair model q c a criteria k).1.aggregate_score = none ↔
        criteria = []) ∧
    (criteria = [] ∨
      (0 < (evaluate_qa_pair model q c a criteria k).1.critiques.length ∧
        (evaluate_qa_pair model q c a criteria k).1.aggregate_score =
          some
            (((evaluate_qa_pair model q c a criteria k).1.critiques.map
                (fun p => p.2.rating)).sum /
              (((evaluate_qa_pair model q c a criteria k).1.critiques.map
                (fun p => p.2.rating)).length : ℚ)))) := by
  have hnil : (evalCriteria model q c a criteria [] k).1 = [] ↔ criteria = [] := by
    simpa using evalCriteria_fst_eq_nil model q c a criteria [] k
  constructor
  · show aggregateScore (evalCriteria model q c a criteria [] k).1 = none ↔ criteria = []
    exact (aggregateScore_eq_none_iff _).trans hnil
  · by_cases hc : criteria = []
    · exact Or.inl hc
    · refine Or.inr ?_
      have hcsne : (evalCriteria model q c a criteria [] k).1 ≠ [] := by
        intro h
        exact hc (hnil.mp h)
      constructor
      · show 0 < (evalCriteria model q c a criteria [] k).1.length
        exact List.length_pos.mpr hcsne
      · show aggregateScore (evalCriteria model q c a criteria [] k).1 =
          some (((evalCriteria model q c a criteria [] k).1.map
              (fun p => p.2.rating)).sum /
            (((evalCriteria model q c a criteria [] k).1.map
              (fun p => p.2.rating)).length : ℚ))
        have hne : ¬ (((evalCriteria model q c a criteria [] k).1.map
            (fun p => p.2.rating)).isEmpty = true) := by
          simp [List.isEmpty_iff, hcsne]
        simp only [aggregateScore]
        rw [if_neg hne]

/-- Witness for C2: one criterion, a well-formed judge — the aggregate equals the
single rating and is not `none`. -/
theorem critique_aggregate_iff_witness :
    ((evaluate_qa_pair judgeOk4 "q" "c" "a" [critGrounded] 0).1.aggregate_score = none ↔
        ([critGrounded] : List Criterion) = []) ∧
    (([critGrounded] : List Criterion) = [] ∨
      (0 < (evaluate_qa_pair judgeOk4 "q" "c" "a" [critGrounded] 0).1.critiques.length ∧
        (evaluate_qa_pair judgeOk4 "q" "c" "a" [critGrounded] 0).1.aggregate_score =
          some
            (((evaluate_qa_pair judgeOk4 "q" "c" "a" [critGrounded] 0).1.critiques.map
                (fun p => p.2.rating)).sum /
              (((evaluate_qa_pair judgeOk4 "q" "c" "a" [critGrounded] 0).1.critiques.map
                (fun p => p.2.rating)).length : ℚ)))) :=
  critique_aggregate_iff judgeOk4 "q" "c" "a" [critGrounded] 0

/-- C4: when every attempt at a criterion fails (render, transport, or parse), the
retry loop runs at most 3 attempts, stores the sentinel critique whose evaluation
text synthesizes the attempt count and the last error and whose rating is 1.0, and
the pair evaluation never aborts: every criterion in any list still receives an
entry in the critiques map. -/
theorem critique_failure_degrades (model : Nat → String → Except String String)
    (q c a : String) (crit : Criterion) (k : Nat) (errF : Nat → String)
    (hfail : ∀ j, (critAttempt model q c a crit j).1 = .error (errF j)) :
    evalCriterion model q c a crit k =
      ({ evaluation := .jstr ("Error after 3 attempts: " ++
            errF ((critAttempt model q c a crit
              ((critAttempt model q c a crit k).2)).2)),
         rating := 1 },
       (critAttempt model q c a crit
         ((critAttempt model q c a crit
           ((critAttempt model q c a crit k).2)).2)).2) ∧
    (critAttempt model q c a crit
      ((critAttempt model q c a crit
        ((critAttempt model q c a crit k).2)).2)).2 ≤ k + 3 ∧
    ∀ (criteria : List Criterion) (k' : Nat) (c₀ : Criterion), c₀ ∈ criteria →
      (lookupCE (evaluate_qa_pair model q c a criteria k').1.critiques c₀.name).isSome := by
  rcases hA0 : critAttempt model q c a crit k with ⟨r0, k1⟩
  have hr0 : r0 = .error (errF k) := by
    have := hfail k; rw [hA0] at this; exact this
  subst hr0
  rcases hA1 : critAttempt model q c a crit k1 with ⟨r1, k2⟩
  have hr1 : r1 = .error (errF k1) := by
    have := hfail k1; rw [hA1] at this; exact this
  subst hr1
  rcases hA2 : critAttempt model q c a crit k2 with ⟨r2, k3⟩
  have hr2 : r2 = .error (errF k2) := by
    have := hfail k2; rw [hA2] at this; exact this
  subst hr2
  have hle0 := critAttempt_snd_le model q c a crit k
  have hle1 := critAttempt_snd_le model q c a crit k1
  have hle2 := critAttempt_snd_le model q c a crit k2
  rw [hA0] at hle0
  rw [hA1] at hle1
  rw [hA2] at hle2
  refine ⟨?_, ?_, ?_⟩
  · show critLoop model q c a crit 3 k = _
    rw [show (3 : Nat) = 2 + 1 from rfl, critLoop_succ, hA0]
    dsimp only
    rw [if_neg (by omega), show (2 : Nat) = 1 + 1 from rfl, critLoop_succ, hA1]
    dsimp only
    rw [if_neg (by omega), show (1 : Nat) = 0 + 1 from rfl, critLoop_succ, hA2]
    dsimp only
    rw [if_pos rfl]
  · dsimp only at hle0 hle1 hle2 ⊢
    omega
  · intro criteria k' c₀ hmem
    simpa [evaluate_qa_pair] using
      evalCriteria_mem_isSome model q c a criteria [] k' c₀ hmem

/-- Witness for C4: a judge whose responses never parse — three failed attempts,
sentinel critique with the synthesized message and rating 1, and the criteria map
still populated. -/
theorem critique_failure_degrades_witness :
    evalCriterion judgeBad "q" "c" "a" critGrounded 5 =
      ({ evaluation := .jstr ("Error after 3 attempts: " ++ msgC4), rating := 1 }, 8) ∧
    (lookupCE (evaluate_qa_pair judgeBad "q" "c" "a" [critGrounded] 0).1.critiques
      "groundedness").isSome := by
  have h := critique_failure_degrades judgeBad "q" "c" "a" critGrounded 5
    (fun _ => msgC4) (fun j => rfl)
  exact ⟨h.1, by simpa using h.2.2 [critGrounded] 0 critGrounded (by simp)⟩

/-- C5 counterexample: a criterion whose template references the undeclared
placeholder answer — rendering does fail (Python `str.format` raises `KeyError`),
contradicting the claim that rendering must not fail. -/
theorem render_not_fail_counterexample :
    renderCriterion critBadTpl "q0" "c0" "a0" = .error "'answer'" := rfl

/-- C5 (amended): substitution passes exactly the declared parameter subset, and
when the template references a placeholder outside the declared parameters,
rendering fails with a `KeyError`; the per-criterion retry loop catches it and
degrades to the sentinel critique without ever invoking the judge model (the
model-call counter is unchanged). -/
theorem render_undeclared_raises (q c a : String) (crit : Criterion) (n : String)
    (hhole : TPart.hole n ∈ crit.prompt_template)
    (hund : crit.parameters.contains n = false) :
    ∃ e, renderCriterion crit q c a = .error e ∧
      ∀ (model : Nat → String → Except String String) (k : Nat),
        evalCriterion model q c a crit k =
          ({ evaluation := .jstr ("Error after 3 attempts: " ++ e), rating := 1 }, k) := by
  have hmiss : lookupStr (declaredParams crit q c a) n = none := by
    have := lookupStr_filter_contains (critParams q c a) crit.parameters n hund
    simpa [declaredParams] using this
  obtain ⟨e, he⟩ :=
    formatTemplate_error_of_missing crit.prompt_template _ n hhole hmiss
  refine ⟨e, he, ?_⟩
  intro model k
  have hA : critAttempt model q c a crit k = (.error e, k) := by
    simp [critAttempt, renderCriterion, he]
  show critLoop model q c a crit 3 k = _
  rw [show (3 : Nat) = 2 + 1 from rfl, critLoop_succ, hA]
  dsimp only
  rw [if_neg (by omega), show (2 : Nat) = 1 + 1 from rfl, critLoop_succ, hA]
  dsimp only
  rw [if_neg (by omega), show (1 : Nat) = 0 + 1 from rfl, critLoop_succ, hA]
  dsimp only
  rw [if_pos rfl]

/-- Witness for C5 at the concrete bad criterion: render fails with the quoted
key, and the criterion degrades to the sentinel with no model call. -/
theorem render_undeclared_raises_witness :
    renderCriterion critBadTpl "q1" "c1" "a1" = .error "'answer'" ∧
    evalCriterion judgeOk4 "q1" "c1" "a1" critBadTpl 7 =
      ({ evaluation := .jstr "Error after 3 attempts: 'answer'", rating := 1 }, 7) := by
  obtain ⟨e, he, hev⟩ := render_undeclared_raises "q1" "c1" "a1" critBadTpl "answer"
    (by simp [critBadTpl]) rfl
  have hcomp : renderCriterion critBadTpl "q1" "c1" "a1" = .error "'answer'" := rfl
  rw [hcomp] at he
  injection he with hee
  subst hee
  exact ⟨hcomp, hev judgeOk4 7⟩

/-- C10: a judge response that is syntactically valid JSON with both required keys
is mangled by `_parse_critique`: the cleaning step deletes the substring json even
inside string values, so the parsed evaluation text differs from the one actually
present in the response. -/
theorem parse_critique_mangles_substring :
    jsonEvalText (jsonParse critR) = some "The json output is valid." ∧
    jsonHasRating (jsonParse critR) = true ∧
    critiqueEvalText (parseCritique critR) = some "The  output is valid." ∧
    some "The  output is valid." ≠ some "The json output is valid." := by
  refine ⟨rfl, rfl, rfl, by decide⟩

/-- C1: the worker's retry law.  With a stub whose responses fail
`ast.literal_eval` on attempts 1..N-1 and parse (and process) successfully on
attempt N: if N ≤ max_retries the worker returns the successfully processed
pairs after exactly N model invocations; if every one of max_retries attempts
fails, it raises the terminal error carrying the attempt count and the last
error message, after exactly max_retries model invocations. -/
theorem worker_retry_law (env : WorkerEnv) (minScore : ℚ) (maxRetries : Nat)
    (chunk0 : String) (errs : Nat → String) (V : String → List PyVal)
    (P : String → List ProcPair) :
    (∀ N, 1 ≤ N → N ≤ maxRetries →
      (∀ chunk k, k + 1 < N → ∃ resp, env.model k chunk = .ok resp ∧
          env.pyEval resp = .error (errs k)) →
      (∀ chunk, ∃ resp, env.model (N - 1) chunk = .ok resp ∧
          env.pyEval resp = .ok (.plist (V chunk)) ∧
          processPairs env.critique chunk minScore (V chunk) = .ok (P chunk)) →
      processChunkWorker env chunk0 minScore maxRetries 0 =
        (.ok (P (iterFB errs (N - 1) 0 chunk0)), N)) ∧
    (1 ≤ maxRetries →
      (∀ chunk k, k < maxRetries → ∃ resp, env.model k chunk = .ok resp ∧
          env.pyEval resp = .error (errs k)) →
      processChunkWorker env chunk0 minScore maxRetries 0 =
        (.fail (failMsg maxRetries (errs (maxRetries - 1))), maxRetries)) := by
  constructor
  · intro N hN1 hNR hf hs
    have hf' : ∀ chunk k, k + 1 < N →
        workerAttempt env minScore chunk k = (.error (errs k), k + 1) := by
      intro chunk k hk
      obtain ⟨resp, hm, hp⟩ := hf chunk k hk
      exact workerAttempt_parse_error env minScore chunk k resp _ hm hp
    have hs' : ∀ chunk, workerAttempt env minScore chunk (N - 1) = (.ok (P chunk), N) := by
      intro chunk
      obtain ⟨resp, hm, hp, hpp⟩ := hs chunk
      rw [workerAttempt_parse_ok env minScore chunk (N - 1) resp (V chunk) (P chunk)
        hm hp hpp]
      rw [show N - 1 + 1 = N by omega]
    have h := workerGo_ok_of_attempts env minScore maxRetries errs P N hf' hs'
      maxRetries 0 chunk0 (by omega) (by omega) hNR
    simpa [processChunkWorker] using h
  · intro hR hf
    have hf' : ∀ chunk k, k < maxRetries →
        workerAttempt env minScore chunk k = (.error (errs k), k + 1) := by
      intro chunk k hk
      obtain ⟨resp, hm, hp⟩ := hf chunk k hk
      exact workerAttempt_parse_error env minScore chunk k resp _ hm hp
    have h := workerGo_fail_of_attempts env minScore maxRetries errs hf'
      maxRetries 0 chunk0 (by omega) (by omega)
    simpa [processChunkWorker] using h

/-- Witness for C1: a stub failing once then succeeding (N = 2 ≤ 3) returns the
parsed pairs after 2 calls; a stub failing every time fails terminally with the
attempt count and last error after exactly 3 calls. -/
theorem worker_retry_law_witness :
    processChunkWorker envRetry "chunk" 0 3 0 =
      (.ok [⟨qaPairFields, feedback "malformed node or string" "chunk", none, none⟩], 2) ∧
    processChunkWorker envAllFail "chunk" 0 3 0 =
      (.fail (failMsg 3 "malformed node or string"), 3) := by
  constructor
  · have hf : ∀ chunk k, k + 1 < 2 → ∃ resp, envRetry.model k chunk = .ok resp ∧
        envRetry.pyEval resp = .error ((fun _ => "malformed node or string") k) := by
      intro chunk k hk
      have hk0 : k = 0 := by omega
      subst hk0
      exact ⟨"BAD", rfl, rfl⟩
    have hs : ∀ chunk, ∃ resp, envRetry.model (2 - 1) chunk = .ok resp ∧
        envRetry.pyEval resp = .ok (.plist ((fun _ => [qaPairVal]) chunk)) ∧
        processPairs envRetry.critique chunk 0 ((fun _ => [qaPairVal]) chunk) =
          .ok ((fun chunk => [⟨qaPairFields, chunk, none, none⟩]) chunk) := by
      intro chunk
      exact ⟨"GOOD", rfl, rfl, rfl⟩
    exact (worker_retry_law envRetry 0 3 "chunk" (fun _ => "malformed node or string")
      (fun _ => [qaPairVal]) (fun chunk => [⟨qaPairFields, chunk, none, none⟩])).1
      2 (by omega) (by omega) hf hs
  · have hf : ∀ chunk k, k < 3 → ∃ resp, envAllFail.model k chunk = .ok resp ∧
        envAllFail.pyEval resp = .error ((fun _ => "malformed node or string") k) := by
      intro chunk k hk
      exact ⟨"BAD", rfl, rfl⟩
    exact (worker_retry_law envAllFail 0 3 "chunk" (fun _ => "malformed node or string")
      (fun _ => []) (fun _ => [])).2 (by omega) hf

/-- C3: the filter gate.  With no critique agent every validated pair is
retained; with a critique agent a pair is retained exactly when its aggregate
score reaches `min_critique_score`; and every pair in a worker's returned result
set carries an aggregate score meeting the bound. -/
theorem critique_filter_law (chunk : String) (minScore : ℚ) :
    (∀ vs ps, processPairs none chunk minScore vs = .ok ps →
        ps = vs.map (plainView chunk)) ∧
    (∀ f vs ps, processPairs (some f) chunk minScore vs = .ok ps →
        ps = vs.filterMap (keptView f chunk minScore)) ∧
    (∀ (env : WorkerEnv) (f : PyVal → String → Except String (PyVal × ℚ))
        (maxR k : Nat) (ps : List ProcPair) (k' : Nat),
        env.critique = some f →
        processChunkWorker env chunk minScore maxR k = (.ok ps, k') →
        ∀ pp ∈ ps, ∃ s, pp.aggregate_score = some s ∧ minScore ≤ s) := by
  refine ⟨processPairs_none_ok chunk minScore,
    fun f => processPairs_some_ok f chunk minScore, ?_⟩
  intro env f maxR k ps k' hcrit hrun pp hpp
  obtain ⟨chunk₁, k₁, hA⟩ := workerGo_ok_inv env minScore maxR maxR chunk k ps k' hrun
  obtain ⟨xs, hpp'⟩ := workerAttempt_ok_inv env minScore chunk₁ k₁ ps hA
  rw [hcrit] at hpp'
  have hchar := processPairs_some_ok f chunk₁ minScore xs ps hpp'
  rw [hchar] at hpp
  obtain ⟨v, _, hkv⟩ := List.mem_filterMap.mp hpp
  exact keptView_bound f chunk₁ minScore v pp hkv

/-- Witness for C3: two parsed pairs, one rated 4 and one rated 2 against
threshold 3 — exactly the high-scoring pair is retained. -/
theorem critique_filter_law_witness :
    ([⟨[("question", .pstr "Q1"), ("answer", .pstr "A1")], "ctx",
        some (.pstr "good"), some 4⟩] : List ProcPair) =
      [pairQ1, pairQ2].filterMap (keptView mixJudge "ctx" 3) :=
  (critique_filter_law "ctx" 3).2.1 mixJudge [pairQ1, pairQ2] _ rfl

/-- C6 (code bug): the worker returns a single, already-filtered result list.  A
generated pair whose aggregate score falls below the threshold is dropped from
the only returned view — there is no second all-generated view, contradicting
the claim and the repository's own tests, which unpack
`generate_from_chunk` into `(all_pairs, filtered_pairs)`. -/
theorem worker_single_view_code_bug :
    envLow.pyEval "RESP" = .ok (.plist [qaPairVal]) ∧
    processChunkWorker envLow "chunk" 3 3 0 = (.ok [], 1) := ⟨rfl, rfl⟩

/-- C7 (code bug): worker validation only checks that each element is a dict with
both keys present; a pair whose question is the integer 1 and whose answer is the
empty string is silently accepted as a QA record instead of raising, contradicting
the claim and the repository's own tests. -/
theorem worker_accepts_invalid_values :
    envBadVals.pyEval "RESP" =
      .ok (.plist [.pdict [("question", .pint 1), ("answer", .pstr "")]]) ∧
    processChunkWorker envBadVals "chunk" 3 3 0 =
      (.ok [⟨[("question", .pint 1), ("answer", .pstr "")], "chunk", none, none⟩], 1) :=
  ⟨rfl, rfl⟩

/-- C8 counterexample: a stub whose first model call raises a transport error —
the worker retries it like a parse failure and succeeds on the second call, so
the transport error is not propagated immediately out of the worker. -/
theorem transport_immediate_propagation_counterexample :
    envTransport.model 0 "chunk" = .error "ConnectionError" ∧
    processChunkWorker envTransport "chunk" 0 3 0 =
      (.ok [⟨qaPairFields, feedback "ConnectionError" "chunk", none, none⟩], 2) :=
  ⟨rfl, rfl⟩

/-- C8 (amended): a transport error from the model call is caught by the worker's
broad exception handler and retried with error feedback like any other failure;
when every attempt raises a transport error the worker raises the terminal
generation failure wrapping the last transport message, rather than propagating
the transport error itself. -/
theorem transport_retry_wraps (env : WorkerEnv) (minScore : ℚ) (maxRetries : Nat)
    (chunk0 : String) (errs : Nat → String) (P : String → List ProcPair) :
    ((∀ chunk k, k < maxRetries → env.model k chunk = .error (errs k)) →
      1 ≤ maxRetries →
      processChunkWorker env chunk0 minScore maxRetries 0 =
        (.fail (failMsg maxRetries (errs (maxRetries - 1))), maxRetries)) ∧
    ((∀ chunk, env.model 0 chunk = .error (errs 0)) →
      (∀ chunk, workerAttempt env minScore chunk 1 = (.ok (P chunk), 2)) →
      2 ≤ maxRetries →
      processChunkWorker env chunk0 minScore maxRetries 0 =
        (.ok (P (feedback (errs 0) chunk0)), 2)) := by
  constructor
  · intro hm hR
    have hf' : ∀ chunk k, k < maxRetries →
        workerAttempt env minScore chunk k = (.error (errs k), k + 1) :=
      fun chunk k hk => workerAttempt_transport env minScore chunk k _ (hm chunk k hk)
    have h := workerGo_fail_of_attempts env minScore maxRetries errs hf'
      maxRetries 0 chunk0 (by omega) (by omega)
    simpa [processChunkWorker] using h
  · intro hm hs hR
    have hf' : ∀ chunk k, k + 1 < 2 →
        workerAttempt env minScore chunk k = (.error (errs k), k + 1) := by
      intro chunk k hk
      have hk0 : k = 0 := by omega
      subst hk0
      exact workerAttempt_transport env minScore chunk 0 _ (hm chunk)
    have hs' : ∀ chunk, workerAttempt env minScore chunk (2 - 1) = (.ok (P chunk), 2) := by
      intro chunk
      simpa using hs chunk
    have h := workerGo_ok_of_attempts env minScore maxRetries errs P 2 hf' hs'
      maxRetries 0 chunk0 (by omega) (by omega) hR
    simpa [processChunkWorker, iterFB] using h

/-- Witness for C8 (amended): all-transport-failures wrap into the terminal
error after 3 calls; a transport failure followed by success is retried. -/
theorem transport_retry_wraps_witness :
    processChunkWorker envTransportAll "chunk" 0 3 0 =
      (.fail (failMsg 3 "ConnectionError"), 3) ∧
    processChunkWorker envTransport "chunk" 0 3 0 =
      (.ok [⟨qaPairFields, feedback "ConnectionError" "chunk", none, none⟩], 2) := by
  constructor
  · exact (transport_retry_wraps envTransportAll 0 3 "chunk" (fun _ => "ConnectionError")
      (fun _ => [])).1 (fun chunk k hk => rfl) (by omega)
  · exact (transport_retry_wraps envTransport 0 3 "chunk" (fun _ => "ConnectionError")
      (fun chunk => [⟨qaPairFields, chunk, none, none⟩])).2 (fun chunk => rfl)
      (fun chunk => rfl) (by omega)

/-- C9: `QAGenerator.generate_from_chunk` raises `TypeError` on a non-string
chunk and `ValueError` on an empty or whitespace-only chunk, in both cases
before any model invocation (the model-call counter is returned unchanged). -/
theorem chunk_guards (env : WorkerEnv) (minScore : ℚ) (maxRetries k : Nat) :
    (∀ t, generate_from_chunk env minScore (.nonstr t) maxRetries k =
        (.typeError ("Chunk must be a string, got " ++ t), k)) ∧
    (∀ s, pyStrip s = "" →
        generate_from_chunk env minScore (.pystr s) maxRetries k =
          (.valueError "Chunk cannot be empty", k)) := by
  constructor
  · intro t
    rfl
  · intro s hs
    simp [generate_from_chunk, hs]

/-- Witness for C9: a non-string argument and a whitespace-only chunk, both
rejected with the counter unchanged. -/
theorem chunk_guards_witness :
    generate_from_chunk envRetry 0 (.nonstr "NoneType") 3 0 =
      (.typeError "Chunk must be a string, got NoneType", 0) ∧
    generate_from_chunk envRetry 0 (.pystr " \n ") 3 0 =
      (.valueError "Chunk cannot be empty", 0) := by
  exact ⟨(chunk_guards envRetry 0 3 0).1 "NoneType",
    (chunk_guards envRetry 0 3 0).2 " \n " rfl⟩

end LLMQA
